import Mathlib

/-!
# Verification of `aws_list_resources.py`

A shallow embedding of the discovery engine of the `aws-list-resources`
repository (`src/aws_list_resources.py`) together with proofs about its
behaviour.  Network interactions (the CloudFormation registry catalog query
and the Cloud Control `list_resources` pagination) are modelled as oracles:
a per-region catalog outcome and, for every resource type, a listing
response consisting of the successfully fetched pages and, possibly, a
terminal exception message.  All in-memory logic (failure classification,
include/exclude filtering, the default-resource filter, result
accumulation, error logging) is translated directly from the Python
source.
-/

namespace AwsListResources

/-! ## String primitives

Python string operations used by the source, modelled on `List Char` so
that they evaluate inside the kernel.  `strContains s pat` models
`pat in s`, `strStarts s pat` models `s.startswith(pat)`, `strLower`
models `str.lower()` (the messages involved are ASCII), and `strLt`/
`strLe` model Python's lexicographic-by-code-point string comparison used
by `sorted()`. -/

/-- `listStarts pat l` is true when `l` starts with `pat`. -/
def listStarts : List Char → List Char → Bool
  | [], _ => true
  | _ :: _, [] => false
  | p :: ps, c :: cs => p == c && listStarts ps cs

/-- `listHasSub pat l` is true when `pat` occurs contiguously in `l`. -/
def listHasSub (pat : List Char) : List Char → Bool
  | [] => pat.isEmpty
  | c :: rest => listStarts pat (c :: rest) || listHasSub pat rest

/-- Python `pat in s` (substring containment). -/
def strContains (s pat : String) : Bool := listHasSub pat.data s.data

/-- Python `s.startswith(pat)`. -/
def strStarts (s pat : String) : Bool := listStarts pat.data s.data

/-- Python `s.lower()` (for the ASCII exception messages involved). -/
def strLower (s : String) : String := ⟨s.data.map Char.toLower⟩

/-- Lexicographic comparison of char lists by code point. -/
def charListLt : List Char → List Char → Bool
  | [], [] => false
  | [], _ :: _ => true
  | _ :: _, [] => false
  | a :: as, b :: bs => decide (a < b) || (a == b && charListLt as bs)

/-- Python `a < b` on strings. -/
def strLt (a b : String) : Bool := charListLt a.data b.data

/-- Python `a <= b` on strings (total-order complement of `strLt`). -/
def strLe (a b : String) : Bool := !(strLt b a)

instance decStrLeRel : DecidableRel (fun a b : String => strLe a b = true) :=
  fun _ _ => inferInstance

/-- Python `sorted(set(xs))`: duplicates removed, then sorted
lexicographically. -/
def sortDedup (xs : List String) : List String :=
  List.insertionSort (fun a b : String => strLe a b = true) xs.dedup

/-! ## Data model

A resource's properties document (`json.loads(resource["Properties"])`) is
modelled as an association list from field names to string values — the
only fields the code inspects (`Arn`, `Type`, `OwnerId`, `PermissionType`,
`CreatorRequestId`, `Name`) are string-valued.  A collection of resources
(a Python `dict` keyed by resource identifier) is an association list in
insertion order. -/

abbrev Props := List (String × String)

/-- Python `v[fieldName]`: dictionary subscript, raising `KeyError` when
the field is absent. -/
def getKey (v : Props) (fieldName : String) : Except String String :=
  match v.lookup fieldName with
  | some s => .ok s
  | none => .error ("KeyError: " ++ fieldName)

/-- Python dict assignment `d[k] = v`: overwrites in place if the key is
present, otherwise appends. -/
def dictInsert {α : Type} (d : List (String × α)) (k : String) (v : α) :
    List (String × α) :=
  if d.any (fun kv => kv.1 == k) then
    d.map (fun kv => if kv.1 == k then (k, v) else kv)
  else d ++ [(k, v)]

/-- Python dict comprehension `{k: v for k, v in resources.items() if p}`
with a predicate that may raise (dictionary subscripts on the properties
document): evaluates the predicate on each item in order, propagating the
first failure. -/
def filterKV (p : String → Props → Except String Bool) :
    List (String × Props) → Except String (List (String × Props))
  | [] => .ok []
  | kv :: rest => do
    let keep ← p kv.1 kv.2
    let r ← filterKV p rest
    pure (if keep then kv :: r else r)

/-- Pure dict comprehension filtering on the identifier only. -/
def filterByKey (p : String → Bool) (resources : List (String × Props)) :
    List (String × Props) :=
  resources.filter (fun kv => p kv.1)

/-- Default `AWS::CloudFront::CachePolicy` identifiers. -/
def cloudFrontCachePolicyDefaults : List String :=
  ["08627262-05a9-4f76-9ded-b50ca2e3a84f",
   "17322e93-4707-445a-93bc-6c8c16621822",
   "1b1c9610-973a-4fb9-9932-a6c274840887",
   "1c6db51a-a33f-469a-8245-dae26771f530",
   "2e54312d-136d-493c-8eb9-b001f22f67d2",
   "4135ea2d-6df8-44a3-9df3-4b5a84be39ad",
   "4c02794c-7c81-4ba1-8b5d-e05fb0f95ed8",
   "4cc15a8a-d715-48a4-82b8-cc0b614638fe",
   "4d1d2f1d-3a71-49ad-9e08-7ea5d843a556",
   "658327ea-f89d-4fab-a63d-7e88639e58f6",
   "766eb028-1aff-4eb2-a5a4-2674e1538f26",
   "7e5fad67-ee98-4ad0-b05a-394999eefc1a",
   "83da9c7e-98b4-4e11-a168-04f0df8e2c65",
   "a6bad946-36c3-4c33-aa98-362c74a7fb13",
   "b2884449-e4de-46a7-ac36-70bc7f1ddd6d"]

/-- Default `AWS::CloudFront::OriginRequestPolicy` identifiers. -/
def cloudFrontOriginRequestPolicyDefaults : List String :=
  ["216adef6-5c7f-47e4-b989-5492eafa07d3",
   "33f36d7e-f396-46d9-90e0-52428a34d9dc",
   "59781a5b-3903-41f3-afcb-af62929ccde1",
   "775133bc-15f2-49f9-abea-afb2e0bf67d2",
   "88a5eaf4-2fd4-4709-b370-b4c650ea3fcf",
   "acba4595-bd28-49b8-b9fe-13317c0390fa",
   "b689b0a8-53d0-40ab-baf2-68738e2966ac"]

/-- Default `AWS::CloudFront::ResponseHeadersPolicy` identifiers. -/
def cloudFrontResponseHeadersPolicyDefaults : List String :=
  ["5cc3b908-e619-4b99-88e5-2cf7f45965bd",
   "60669652-455b-4ae9-85a4-c4c02393f86c",
   "67f7725c-6f97-4210-82d7-5512b31e9d03",
   "e61eb60c-9c35-4d20-a928-2b84e02af89c",
   "eaab4381-ed33-4a86-88ca-d9558dc6cd63"]

/-- Default `AWS::CodePipeline::CustomActionType` identifiers. -/
def codePipelineCustomActionTypeDefaults : List String :=
  ["Approval|Manual|1",
   "Build|CodeBuild|1",
   "Build|ECRBuildAndPublish|1",
   "Compute|Commands|1",
   "Deploy|AlexaSkillsKit|1",
   "Deploy|AppConfig|1",
   "Deploy|CloudFormationStackInstances|1",
   "Deploy|CloudFormationStackSet|1",
   "Deploy|CloudFormation|1",
   "Deploy|CodeDeployToECS|1",
   "Deploy|CodeDeploy|1",
   "Deploy|EC2|1",
   "Deploy|ECS|1",
   "Deploy|EKS|1",
   "Deploy|ElasticBeanstalk|1",
   "Deploy|OpsWorks|1",
   "Deploy|S3|1",
   "Deploy|ServiceCatalog|1",
   "Invoke|CodePipeline|1",
   "Invoke|InspectorScan|1",
   "Invoke|Lambda|1",
   "Invoke|Snyk|1",
   "Invoke|StepFunctions|1",
   "Source|CodeCommit|1",
   "Source|CodeStarSourceConnection|1",
   "Source|ECR|1",
   "Source|GitHub|1",
   "Source|S3|1",
   "Test|CodeBuild|1",
   "Test|DeviceFarm|1",
   "Test|GhostInspector|1",
   "Test|MFStormRunner|1",
   "Test|Runscope|1"]

/-- Default `AWS::GameLift::Location` identifiers. -/
def gameLiftLocationDefaults : List String :=
  ["af-south-1",
   "af-south-1-los-1",
   "ap-east-1",
   "ap-northeast-1",
   "ap-northeast-2",
   "ap-northeast-3",
   "ap-south-1",
   "ap-southeast-1",
   "ap-southeast-2",
   "ca-central-1",
   "eu-central-1",
   "eu-north-1",
   "eu-south-1",
   "eu-west-1",
   "eu-west-2",
   "eu-west-3",
   "me-south-1",
   "sa-east-1",
   "us-east-1",
   "us-east-1-atl-1",
   "us-east-1-chi-1",
   "us-east-1-dfw-1",
   "us-east-1-iah-1",
   "us-east-1-mci-1",
   "us-east-2",
   "us-west-1",
   "us-west-2",
   "us-west-2-den-1",
   "us-west-2-lax-1",
   "us-west-2-phx-1"]

/-- Identifier starts marking default `AWS::SSM::Document` instances. -/
def ssmDocumentDefaultStarts : List String :=
  ["AWS",
   "AlertLogic",
   "Amazon",
   "Aws",
   "CrowdStrike",
   "Dynatrace",
   "FalconSensor",
   "New-Relic",
   "SSM",
   "TrendMicro"]

/-! ## `apply_default_resources_filter`

Direct translation of the per-type default-resource exclusion table.
Rules that inspect a field of the properties document use `getKey` and can
therefore fail with a `KeyError` when the field is absent; rules that only
inspect the identifier are pure. -/

def applyDefaultResourcesFilter (resource_type : String)
    (resources : List (String × Props)) : Except String (List (String × Props)) :=
  match resource_type with
  | "AWS::AppConfig::DeploymentStrategy" =>
    .ok (filterByKey (fun k => !(strStarts k "AppConfig.")) resources)
  | "AWS::AppConfig::Extension" =>
    filterKV (fun _ v => (getKey v "Arn").map
      (fun a => !(strContains a "::extension/AWS."))) resources
  | "AWS::AppRunner::AutoScalingConfiguration" =>
    .ok (filterByKey
      (fun k => !(strContains k ":autoscalingconfiguration/DefaultConfiguration/")) resources)
  | "AWS::AppRunner::ObservabilityConfiguration" =>
    .ok (filterByKey
      (fun k => !(strContains k ":observabilityconfiguration/DefaultConfiguration/")) resources)
  | "AWS::Athena::DataCatalog" =>
    .ok (filterByKey (fun k => k != "AwsDataCatalog") resources)
  | "AWS::Athena::WorkGroup" =>
    .ok (filterByKey (fun k => k != "primary") resources)
  | "AWS::Backup::BackupVault" =>
    .ok (filterByKey (fun k => k != "Default") resources)
  | "AWS::Cassandra::Keyspace" =>
    .ok (filterByKey (fun k => k != "system_multiregion_info") resources)
  | "AWS::CloudFormation::PublicTypeVersion" =>
    .ok (filterByKey (fun k => !(strContains k "::type/")) resources)
  | "AWS::CloudFront::CachePolicy" =>
    .ok (filterByKey (fun k => !(cloudFrontCachePolicyDefaults.contains k)) resources)
  | "AWS::CloudFront::OriginRequestPolicy" =>
    .ok (filterByKey (fun k => !(cloudFrontOriginRequestPolicyDefaults.contains k)) resources)
  | "AWS::CloudFront::ResponseHeadersPolicy" =>
    .ok (filterByKey (fun k => !(cloudFrontResponseHeadersPolicyDefaults.contains k)) resources)
  | "AWS::CloudTrail::Dashboard" =>
    filterKV (fun _ v => (getKey v "Type").map (fun t => t != "MANAGED")) resources
  | "AWS::CodeDeploy::DeploymentConfig" =>
    .ok (filterByKey (fun k => !(strStarts k "CodeDeployDefault.")) resources)
  | "AWS::CodePipeline::CustomActionType" =>
    .ok (filterByKey (fun k => !(codePipelineCustomActionTypeDefaults.contains k)) resources)
  | "AWS::EC2::PrefixList" =>
    filterKV (fun _ v => (getKey v "OwnerId").map (fun o => o != "AWS")) resources
  | "AWS::ECS::CapacityProvider" =>
    .ok (filterByKey (fun k => !(["FARGATE", "FARGATE_SPOT"].contains k)) resources)
  | "AWS::ElastiCache::ParameterGroup" =>
    .ok (filterByKey (fun k => !(strStarts k "default.")) resources)
  | "AWS::ElastiCache::User" =>
    .ok (filterByKey (fun k => k != "default") resources)
  | "AWS::Events::EventBus" =>
    .ok (filterByKey (fun k => k != "default") resources)
  | "AWS::GameLift::Location" =>
    .ok (filterByKey (fun k => !(gameLiftLocationDefaults.contains k)) resources)
  | "AWS::IAM::ManagedPolicy" =>
    .ok (filterByKey (fun k => !(strStarts k "arn:aws:iam::aws:policy/")) resources)
  | "AWS::IoT::DomainConfiguration" =>
    .ok (filterByKey
      (fun k => !(["iot:CredentialProvider", "iot:Data-ATS", "iot:Jobs"].contains k)) resources)
  | "AWS::KMS::Alias" =>
    .ok (filterByKey (fun k => !(strStarts k "alias/aws/")) resources)
  | "AWS::MediaLive::CloudWatchAlarmTemplate" =>
    filterKV (fun _ v => (getKey v "Arn").map
      (fun a => !(strContains a "::cloudwatch-alarm-template:aws-"))) resources
  | "AWS::MediaLive::CloudWatchAlarmTemplateGroup" =>
    filterKV (fun _ v => (getKey v "Arn").map
      (fun a => !(strContains a "::cloudwatch-alarm-template-group:aws-"))) resources
  | "AWS::MemoryDB::ACL" =>
    .ok (filterByKey (fun k => k != "open-access") resources)
  | "AWS::MemoryDB::ParameterGroup" =>
    .ok (filterByKey (fun k => !(strStarts k "default.")) resources)
  | "AWS::MemoryDB::User" =>
    .ok (filterByKey (fun k => k != "default") resources)
  | "AWS::RAM::Permission" =>
    filterKV (fun _ v => (getKey v "PermissionType").map (fun p => p != "AWS_MANAGED")) resources
  | "AWS::RDS::DBClusterParameterGroup" =>
    .ok (filterByKey (fun k => !(strStarts k "default.")) resources)
  | "AWS::RDS::DBParameterGroup" =>
    .ok (filterByKey (fun k => !(strStarts k "default.")) resources)
  | "AWS::RDS::OptionGroup" =>
    .ok (filterByKey (fun k => !(strStarts k "default:")) resources)
  | "AWS::Route53Resolver::FirewallDomainList" =>
    filterKV (fun _ v => (getKey v "CreatorRequestId").map
      (fun c => !(strStarts c "AWSManaged"))) resources
  | "AWS::Route53Resolver::ResolverRule" =>
    .ok (filterByKey (fun k => !(strStarts k "rslvr-autodefined-")) resources)
  | "AWS::Route53Resolver::ResolverRuleAssociation" =>
    .ok (filterByKey (fun k => !(strStarts k "rslvr-autodefined-")) resources)
  | "AWS::S3::StorageLens" =>
    .ok (filterByKey (fun k => k != "default-account-dashboard") resources)
  | "AWS::SSM::Document" =>
    .ok (filterByKey
      (fun k => !(ssmDocumentDefaultStarts.any (fun pfx => strStarts k pfx))) resources)
  | "AWS::SSM::PatchBaseline" =>
    filterKV (fun _ v => (getKey v "Name").map (fun n => !(strStarts n "AWS-"))) resources
  | "AWS::Scheduler::ScheduleGroup" =>
    .ok (filterByKey (fun k => k != "default") resources)
  | "AWS::XRay::Group" =>
    .ok (filterByKey (fun k => !(strContains k ":group/Default")) resources)
  | "AWS::XRay::SamplingRule" =>
    .ok (filterByKey (fun k => !(strContains k ":sampling-rule/Default")) resources)
  | _ => .ok resources

/-! ## `get_resources`

The Cloud Control `list_resources` paginator is modelled as the sequence
of pages that are successfully fetched and parsed, optionally terminated
by an exception carrying a message.  Each page is the already-parsed list
of `(Identifier, Properties)` pairs of its `ResourceDescriptions`. -/

/-- Outcome of paginating `list_resources` for one resource type:
either the pagination completes with the given pages, or it raises an
exception with message `exMsg` after the given pages were fetched. -/
inductive ListingResponse : Type where
  | ok (pages : List (List (String × Props)))
  | fail (pages : List (List (String × Props))) (exMsg : String)

/-- Accumulation of `collected_resources[resource["Identifier"]] = ...`
over all fetched pages. -/
def collectPages (pages : List (List (String × Props))) : List (String × Props) :=
  pages.foldl (fun acc page => page.foldl (fun a r => dictInsert a r.1 r.2) acc) []

/-- The keyword scan of the `except` clause of `get_resources`: the
lowercased exception message is searched for the substrings `denied`,
`authorization` and `authorized`. -/
def isDeniedMsg (exMsg : String) : Bool :=
  ["denied", "authorization", "authorized"].any
    (fun kw => strContains (strLower exMsg) kw)

/-- `get_resources`: pages are collected into a dict until pagination
completes or raises.  A raised exception whose lowercased message contains
a denial keyword is re-raised as `DeniedListOperationException` (the
`.error ()` case); any other exception is swallowed and the resources
collected so far are returned. -/
def getResources : ListingResponse → Except Unit (List (String × Props))
  | .ok pages => .ok (collectPages pages)
  | .fail pages exMsg =>
    if isDeniedMsg exMsg then .error () else .ok (collectPages pages)

/-! ## Error messages logged by `analyze_region` via `log_error` -/

/-- Message logged when the catalog query of a region fails. -/
def catalogFailMsg (region exMsg : String) : String :=
  "Unable to list supported resource types for region " ++ region ++ ": " ++ exMsg

/-- Message logged when a user-supplied pattern matches no supported
resource type of a region. -/
def warnMsg (region pat : String) : String :=
  "Provided resource type does not match any supported resource types in region "
    ++ region ++ ": " ++ pat

/-- Message logged when listing a resource type raised
`DeniedListOperationException`. -/
def deniedMsg (region resource_type : String) : String :=
  "Access denied to list resource type in region " ++ region ++ ": " ++ resource_type

/-! ## `analyze_region` -/

/-- Per-region environment: the outcome of
`get_supported_resource_types` (a list of supported resource types, or the
message of the exception the query raised) and, for each resource type,
the response of the Cloud Control listing paginator. -/
structure RegionEnv : Type where
  catalog : Except String (List String)
  listings : String → ListingResponse

/-- A value stored under `result_collection["regions"][region][type]`:
an instance count when `--only-show-counts` is set, the full resource
dict otherwise. -/
inductive Entry : Type where
  | count (n : Nat)
  | full (resources : List (String × Props))
deriving DecidableEq

/-- The value written for a non-empty filtered resource dict. -/
def mkEntry (onlyShowCounts : Bool) (resources : List (String × Props)) : Entry :=
  if onlyShowCounts then .count resources.length else .full resources

/-- What one region's worker contributes to the shared result collection:
the messages appended to `_metadata.errors[region]` and the entries
written under `regions[region]`. -/
structure RegionResult : Type where
  errors : List String
  resources : List (String × Entry)
deriving DecidableEq

/-- The union of `fnmatch.filter(resource_types_supported, pattern)` over
a pattern list, as accumulated by the `update`/`difference_update` loops.
The glob matcher itself (`fnmatch`) is external library code and is a
parameter `matchFn pattern type`. -/
def matchedTypes (matchFn : String → String → Bool) (patterns supported : List String) :
    List String :=
  patterns.foldl (fun acc pat => acc ++ supported.filter (fun t => matchFn pat t)) []

/-- `resource_types_enabled`: the include-matched types minus the
exclude-matched types, as a sorted duplicate-free list
(`sorted(resource_types_enabled)` of the Python set). -/
def enabledResourceTypes (matchFn : String → String → Bool)
    (includePatterns excludePatterns supported : List String) : List String :=
  sortDedup ((matchedTypes matchFn includePatterns supported).filter
    (fun t => !((matchedTypes matchFn excludePatterns supported).contains t)))

/-- The warnings logged for user-supplied patterns
(`sorted(set(include + exclude))`) that match no supported resource type
of the region. -/
def unmatchedWarnings (matchFn : String → String → Bool)
    (includePatterns excludePatterns supported : List String) (region : String) :
    List String :=
  ((sortDedup (includePatterns ++ excludePatterns)).filter
    (fun pat => (supported.filter (fun t => matchFn pat t)).isEmpty)).map
      (fun pat => warnMsg region pat)

/-- The listing loop of `analyze_region` over the enabled resource types,
threading the error log and the region's result map.  A
`DeniedListOperationException` appends a denial message; a `KeyError`
raised by `apply_default_resources_filter` is not caught anywhere in
`analyze_region` and aborts the region's worker, keeping whatever was
already written. -/
def listLoop (onlyShowCounts : Bool) (listings : String → ListingResponse)
    (region : String) :
    List String → List String → List (String × Entry) →
      List String × List (String × Entry)
  | [], errs, res => (errs, res)
  | rt :: rest, errs, res =>
    match getResources (listings rt) with
    | .error _ => listLoop onlyShowCounts listings region rest
        (errs ++ [deniedMsg region rt]) res
    | .ok rs =>
      match applyDefaultResourcesFilter rt rs with
      | .error _ => (errs, res)
      | .ok filtered =>
        if filtered.isEmpty then listLoop onlyShowCounts listings region rest errs res
        else listLoop onlyShowCounts listings region rest errs
          (dictInsert res rt (mkEntry onlyShowCounts filtered))

/-- `analyze_region`: resolve the catalog (returning early, with a single
error message, if the query failed), log unmatched-pattern warnings,
compute the enabled resource types and run the listing loop. -/
def analyzeRegion (matchFn : String → String → Bool)
    (includePatterns excludePatterns : List String) (onlyShowCounts : Bool)
    (env : RegionEnv) (region : String) : RegionResult :=
  match env.catalog with
  | .error exMsg => ⟨[catalogFailMsg region exMsg], []⟩
  | .ok supported =>
    let warnings := unmatchedWarnings matchFn includePatterns excludePatterns supported region
    let enabled := enabledResourceTypes matchFn includePatterns excludePatterns supported
    let out := listLoop onlyShowCounts env.listings region enabled warnings []
    ⟨out.1, out.2⟩

/-! ## The result collection -/

/-- The parts of `result_collection` the region workers write:
`_metadata.errors` (region → message list) and `regions`
(region → resource type → entry).  Both are initialised with one empty
slot per requested region; each region's worker mutates only its own
slots. -/
structure ResultCollection : Type where
  errors : List (String × List String)
  regionsMap : List (String × List (String × Entry))
deriving DecidableEq

/-- The whole discovery run: every requested region's worker fills that
region's two slots from its own environment. -/
def runAll (matchFn : String → String → Bool)
    (includePatterns excludePatterns : List String) (onlyShowCounts : Bool)
    (envs : String → RegionEnv) (regions : List String) : ResultCollection :=
  ⟨regions.map (fun r =>
      (r, (analyzeRegion matchFn includePatterns excludePatterns onlyShowCounts
            (envs r) r).errors)),
   regions.map (fun r =>
      (r, (analyzeRegion matchFn includePatterns excludePatterns onlyShowCounts
            (envs r) r).resources))⟩

/-- The resource types of a listing loop run that raise
`DeniedListOperationException`, in processing order, truncated at the
first uncaught `KeyError` of the default-resource filter (which aborts the
region's worker). -/
def deniedUpToCrash (listings : String → ListingResponse) : List String → List String
  | [] => []
  | rt :: rest =>
    match getResources (listings rt) with
    | .error _ => rt :: deniedUpToCrash listings rest
    | .ok rs =>
      match applyDefaultResourcesFilter rt rs with
      | .error _ => []
      | .ok _ => deniedUpToCrash listings rest

/-- First character of a string, used to tell the message kinds apart. -/
def headChar (s : String) : Option Char := s.data.head?

/-- Overwrite one resource type's listing response in an environment. -/
def RegionEnv.withListing (env : RegionEnv) (rt : String) (resp : ListingResponse) :
    RegionEnv :=
  ⟨env.catalog, fun t => if t == rt then resp else env.listings t⟩

/-! ## Concrete sample environments -/

/-- A region whose sole supported resource type fails to list with an
exception that carries none of the denial keywords. -/
def otherFailureEnv : RegionEnv :=
  ⟨.ok ["AWS::Foo::Bar"],
   fun _ => .fail [] "InvalidRequestException: missing required parameter"⟩

/-- A region with one supported resource type whose listing is denied;
querying it together with a pattern that matches nothing makes the error
log hold a warning followed by a denial message. -/
def deniedAfterWarningEnv : RegionEnv :=
  ⟨.ok ["AWS::Athena::WorkGroup"],
   fun _ => .fail [] "AccessDeniedException: not authorized"⟩

/-- A region whose catalog query fails. -/
def catalogFailureEnv : RegionEnv :=
  ⟨.error "InternalFailure", fun _ => .ok []⟩

/-- A healthy sibling region with one listable resource type. -/
def healthyEnv : RegionEnv :=
  ⟨.ok ["AWS::Foo::Bar"], fun _ => .ok [[("w-1", []), ("w-2", [])]]⟩

/-- Environment pair for the two-region scenario: `r-bad`'s catalog query
fails, `r-good` is healthy. -/
def twoRegionEnvs : String → RegionEnv :=
  fun r => if r == "r-bad" then catalogFailureEnv else healthyEnv

/-- String equality as a degenerate glob matcher (a pattern without
wildcards matches exactly itself), used for concrete evaluations. -/
def eqMatch (pat t : String) : Bool := pat == t

/-- A region whose sole listable resource type returns only the default
Athena work group, which the default-resource filter removes. -/
def emptyAfterFilterEnv : RegionEnv :=
  ⟨.ok ["AWS::Athena::WorkGroup"], fun _ => .ok [[("primary", [])]]⟩

/-! ## Helper lemmas: strings and messages -/

theorem append_cancel_left_str {a b c : String} (h : a ++ b = a ++ c) : b = c := by
  apply String.ext
  have hd := congrArg String.data h
  rw [String.data_append, String.data_append] at hd
  exact List.append_cancel_left hd

theorem warnMsg_inj {region p q : String} (h : warnMsg region p = warnMsg region q) :
    p = q := by
  unfold warnMsg at h
  exact append_cancel_left_str h

theorem deniedMsg_inj {region p q : String} (h : deniedMsg region p = deniedMsg region q) :
    p = q := by
  unfold deniedMsg at h
  exact append_cancel_left_str h

theorem headChar_warnMsg (region p : String) : headChar (warnMsg region p) = some 'P' := by
  unfold headChar warnMsg
  rw [String.data_append, String.data_append, String.data_append,
    List.append_assoc, List.append_assoc, List.head?_append]
  rfl

theorem headChar_deniedMsg (region t : String) : headChar (deniedMsg region t) = some 'A' := by
  unfold headChar deniedMsg
  rw [String.data_append, String.data_append, String.data_append,
    List.append_assoc, List.append_assoc, List.head?_append]
  rfl

theorem warnMsg_ne_deniedMsg {r1 p r2 t : String} : warnMsg r1 p ≠ deniedMsg r2 t := by
  intro h
  have h1 := headChar_warnMsg r1 p
  rw [h, headChar_deniedMsg] at h1
  exact absurd h1 (by decide)

/-! ## Helper lemmas: `sortDedup` and `matchedTypes` -/

theorem mem_sortDedup {a : String} {xs : List String} : a ∈ sortDedup xs ↔ a ∈ xs := by
  unfold sortDedup
  rw [(List.perm_insertionSort _ _).mem_iff, List.mem_dedup]

theorem nodup_sortDedup (xs : List String) : (sortDedup xs).Nodup :=
  (List.perm_insertionSort _ _).nodup_iff.mpr (List.nodup_dedup xs)

theorem foldl_append_eq {α β : Type} (f : α → List β) :
    ∀ (ps : List α) (acc : List β),
      ps.foldl (fun a p => a ++ f p) acc = acc ++ ps.flatMap f := by
  intro ps
  induction ps with
  | nil => intro acc; simp
  | cons q rest ih => intro acc; simp [ih, List.append_assoc]

theorem matchedTypes_eq (mf : String → String → Bool) (ps s : List String) :
    matchedTypes mf ps s = ps.flatMap (fun p => s.filter (fun t => mf p t)) := by
  unfold matchedTypes
  rw [foldl_append_eq]
  rfl

theorem mem_matchedTypes {mf : String → String → Bool} {ps s : List String} {t : String} :
    t ∈ matchedTypes mf ps s ↔ ∃ p ∈ ps, t ∈ s ∧ mf p t = true := by
  rw [matchedTypes_eq]
  simp [List.mem_flatMap, List.mem_filter]

theorem mem_enabledResourceTypes {mf : String → String → Bool}
    {i x s : List String} {t : String} :
    t ∈ enabledResourceTypes mf i x s ↔
      t ∈ matchedTypes mf i s ∧ t ∉ matchedTypes mf x s := by
  unfold enabledResourceTypes
  rw [mem_sortDedup, List.mem_filter]
  simp

/-! ## Helper lemmas: `dictInsert` and the listing loop -/

theorem mem_dictInsert {α : Type} {d : List (String × α)} {k : String} {v : α}
    {e : String × α} (h : e ∈ dictInsert d k v) : e ∈ d ∨ e = (k, v) := by
  unfold dictInsert at h
  split at h
  · rw [List.mem_map] at h
    obtain ⟨kv, hkv, heq⟩ := h
    by_cases hb : (kv.1 == k) = true
    · right
      rw [if_pos hb] at heq
      exact heq.symm
    · left
      rw [if_neg hb] at heq
      rwa [← heq]
  · rw [List.mem_append] at h
    rcases h with h | h
    · exact Or.inl h
    · right
      simpa using h

theorem listLoop_errs (c : Bool) (lst : String → ListingResponse) (r : String) :
    ∀ (ts : List String) (errs : List String) (res : List (String × Entry)),
      (listLoop c lst r ts errs res).1
        = errs ++ (deniedUpToCrash lst ts).map (fun rt => deniedMsg r rt) := by
  intro ts
  induction ts with
  | nil => intro errs res; simp [listLoop, deniedUpToCrash]
  | cons rt rest ih =>
    intro errs res
    simp only [listLoop, deniedUpToCrash]
    split
    · rw [ih]
      simp [List.append_assoc]
    · split
      · simp
      · split
        · simp [ih]
        · simp [ih]

theorem deniedUpToCrash_sublist (lst : String → ListingResponse) :
    ∀ ts : List String, List.Sublist (deniedUpToCrash lst ts) ts := by
  intro ts
  induction ts with
  | nil => simp [deniedUpToCrash]
  | cons rt rest ih =>
    simp only [deniedUpToCrash]
    split
    · exact ih.cons₂ rt
    · split
      · exact List.nil_sublist _
      · exact ih.cons rt

theorem mem_deniedUpToCrash {lst : String → ListingResponse} :
    ∀ {ts : List String} {rt : String}, rt ∈ deniedUpToCrash lst ts →
      getResources (lst rt) = .error () := by
  intro ts
  induction ts with
  | nil => intro rt h; simp [deniedUpToCrash] at h
  | cons t rest ih =>
    intro rt h
    simp only [deniedUpToCrash] at h
    split at h
    · rcases List.mem_cons.mp h with h | h
      · subst h
        rename_i u heq
        cases u
        exact heq
      · exact ih h
    · split at h
      · simp at h
      · exact ih h

theorem mem_listLoop_res {c : Bool} {lst : String → ListingResponse} {r : String} :
    ∀ {ts : List String} {errs : List String} {res : List (String × Entry)}
      {e : String × Entry}, e ∈ (listLoop c lst r ts errs res).2 →
      e ∈ res ∨ ∃ rt rs filtered, rt ∈ ts ∧ getResources (lst rt) = .ok rs ∧
        applyDefaultResourcesFilter rt rs = .ok filtered ∧ filtered ≠ [] ∧
        e = (rt, mkEntry c filtered) := by
  intro ts
  induction ts with
  | nil => intro errs res e h; exact Or.inl h
  | cons t rest ih =>
    intro errs res e h
    simp only [listLoop] at h
    split at h
    · rcases ih h with h2 | ⟨rt, rs, filtered, hmem, h3, h4, h5, h6⟩
      · exact Or.inl h2
      · exact Or.inr ⟨rt, rs, filtered, List.mem_cons_of_mem t hmem, h3, h4, h5, h6⟩
    · rename_i rs hg
      split at h
      · exact Or.inl h
      · rename_i filtered hf
        split at h
        · rcases ih h with h2 | ⟨rt, rs2, f2, hmem, h3, h4, h5, h6⟩
          · exact Or.inl h2
          · exact Or.inr ⟨rt, rs2, f2, List.mem_cons_of_mem t hmem, h3, h4, h5, h6⟩
        · rename_i hne
          rcases ih h with h2 | ⟨rt, rs2, f2, hmem, h3, h4, h5, h6⟩
          · rcases mem_dictInsert h2 with h3 | h3
            · exact Or.inl h3
            · refine Or.inr ⟨t, rs, filtered, List.mem_cons_self t rest, hg, hf, ?_, h3⟩
              intro hnil
              rw [hnil] at hne
              simp at hne
          · exact Or.inr ⟨rt, rs2, f2, List.mem_cons_of_mem t hmem, h3, h4, h5, h6⟩

theorem listLoop_congr {c : Bool} {r : String} {l1 l2 : String → ListingResponse}
    (hagree : ∀ t, getResources (l1 t) = getResources (l2 t)) :
    ∀ (ts : List String) (errs : List String) (res : List (String × Entry)),
      listLoop c l1 r ts errs res = listLoop c l2 r ts errs res := by
  intro ts
  induction ts with
  | nil => intro errs res; rfl
  | cons t rest ih =>
    intro errs res
    simp only [listLoop, hagree t]
    split
    · exact ih _ _
    · split
      · rfl
      · split
        · exact ih _ _
        · exact ih _ _

/-! ## Helper lemmas: `analyze_region` and the run -/

theorem analyzeRegion_catalogError {mf : String → String → Bool}
    {i x : List String} {c : Bool} {env : RegionEnv} {r m : String}
    (h : env.catalog = .error m) :
    analyzeRegion mf i x c env r = ⟨[catalogFailMsg r m], []⟩ := by
  unfold analyzeRegion
  rw [h]

theorem analyzeRegion_catalogOk {mf : String → String → Bool}
    {i x : List String} {c : Bool} {env : RegionEnv} {r : String} {s : List String}
    (h : env.catalog = .ok s) :
    analyzeRegion mf i x c env r =
      ⟨(listLoop c env.listings r (enabledResourceTypes mf i x s)
          (unmatchedWarnings mf i x s r) []).1,
       (listLoop c env.listings r (enabledResourceTypes mf i x s)
          (unmatchedWarnings mf i x s r) []).2⟩ := by
  unfold analyzeRegion
  rw [h]

theorem lookup_map_pair {β : Type} (f : String → β) :
    ∀ (regions : List String) (r : String),
      (regions.map (fun q => (q, f q))).lookup r =
        if r ∈ regions then some (f r) else none := by
  intro regions
  induction regions with
  | nil => intro r; simp [List.lookup]
  | cons q rest ih =>
    intro r
    by_cases hrq : r = q
    · subst hrq
      simp [List.lookup]
    · have hb : (r == q) = false := by simpa using hrq
      simp [List.lookup, hb, ih, List.mem_cons, hrq]

/-! ## Helper lemmas: totality of the default-resource filter rules -/

theorem getKey_ok {v : Props} {fieldName : String} (h : (v.lookup fieldName).isSome) :
    ∃ s, getKey v fieldName = .ok s := by
  cases hl : v.lookup fieldName with
  | none => rw [hl] at h; simp at h
  | some s => exact ⟨s, by unfold getKey; rw [hl]⟩

theorem mapPred_ok {v : Props} {fieldName : String} (g : String → Bool)
    (h : (v.lookup fieldName).isSome) :
    ∃ b, (getKey v fieldName).map g = .ok b := by
  obtain ⟨s, hs⟩ := getKey_ok h
  exact ⟨g s, by rw [hs]; rfl⟩

theorem filterKV_ok (p : String → Props → Except String Bool) :
    ∀ l : List (String × Props),
      (∀ kv ∈ l, ∃ b, p kv.1 kv.2 = .ok b) → ∃ rs, filterKV p l = .ok rs := by
  intro l
  induction l with
  | nil => intro _; exact ⟨[], rfl⟩
  | cons kv rest ih =>
    intro h
    obtain ⟨b, hb⟩ := h kv (List.mem_cons_self kv rest)
    obtain ⟨rs, hrs⟩ := ih (fun kv2 hkv2 => h kv2 (List.mem_cons_of_mem kv hkv2))
    refine ⟨if b then kv :: rs else rs, ?_⟩
    simp only [filterKV]
    rw [hb, hrs]
    rfl

/-! ## Helper lemmas: no duplicates in a region's error log -/

theorem nodup_unmatchedWarnings (mf : String → String → Bool)
    (i x s : List String) (r : String) : (unmatchedWarnings mf i x s r).Nodup := by
  unfold unmatchedWarnings
  apply List.Nodup.map_on
  · intro p _ q _ hpq
    exact warnMsg_inj hpq
  · exact (nodup_sortDedup _).filter _

theorem mem_unmatchedWarnings {mf : String → String → Bool}
    {i x s : List String} {r m : String} (h : m ∈ unmatchedWarnings mf i x s r) :
    ∃ p, m = warnMsg r p := by
  unfold unmatchedWarnings at h
  rw [List.mem_map] at h
  obtain ⟨p, _, hp⟩ := h
  exact ⟨p, hp.symm⟩

/-! ## Helper lemmas: removing a pattern that matches nothing -/

theorem matchedTypes_remove_unmatched {mf : String → String → Bool}
    {s : List String} {p : String} (hnone : ∀ t ∈ s, mf p t = false) :
    ∀ ps : List String,
      matchedTypes mf (ps.filter (fun q => q != p)) s = matchedTypes mf ps s := by
  intro ps
  rw [matchedTypes_eq, matchedTypes_eq]
  induction ps with
  | nil => rfl
  | cons q rest ih =>
    by_cases hq : q = p
    · subst hq
      have hfil : List.filter (fun t => mf q t) s = [] :=
        List.filter_eq_nil_iff.mpr (by intro a ha; simp [hnone a ha])
      simp [List.filter_cons, hfil, ih]
    · have hb : (q != p) = true := by simpa using hq
      simp [List.filter_cons, hb, ih]

theorem enabled_remove_unmatched {mf : String → String → Bool}
    {s : List String} {p : String} (hnone : ∀ t ∈ s, mf p t = false)
    (i x : List String) :
    enabledResourceTypes mf (i.filter (fun q => q != p)) (x.filter (fun q => q != p)) s
      = enabledResourceTypes mf i x s := by
  unfold enabledResourceTypes
  rw [matchedTypes_remove_unmatched hnone i, matchedTypes_remove_unmatched hnone x]

theorem listLoop_res_errs_indep (c : Bool) (lst : String → ListingResponse) (r : String) :
    ∀ (ts : List String) (errs1 errs2 : List String) (res : List (String × Entry)),
      (listLoop c lst r ts errs1 res).2 = (listLoop c lst r ts errs2 res).2 := by
  intro ts
  induction ts with
  | nil => intro errs1 errs2 res; rfl
  | cons t rest ih =>
    intro errs1 errs2 res
    simp only [listLoop]
    split
    · exact ih _ _ _
    · split
      · rfl
      · split
        · exact ih _ _ _
        · exact ih _ _ _

/-! ## Claim theorems -/

/-- C1: for every exception raised during the paginated listing of a
resource type, `get_resources` raises `DeniedListOperationException` if
and only if the lowercased exception message contains at least one of the
substrings "denied", "authorization" or "authorized"; in particular a
message containing "Denied", "AuthorizationError" or "not authorized" (in
any letter case) is classified denied, and the message
"ResourceTypeNotFoundException: unknown" is not. -/
theorem getResources_denied_iff :
    (∀ (pages : List (List (String × Props))) (exMsg : String),
      getResources (.fail pages exMsg) = .error () ↔
        (strContains (strLower exMsg) "denied"
          || strContains (strLower exMsg) "authorization"
          || strContains (strLower exMsg) "authorized") = true)
    ∧ (∀ pages, getResources (.fail pages "Operation Denied") = .error ())
    ∧ (∀ pages, getResources (.fail pages "An AuthorizationError occurred") = .error ())
    ∧ (∀ pages, getResources (.fail pages "User is Not Authorized to perform this") = .error ())
    ∧ (∀ pages, getResources (.fail pages "ResourceTypeNotFoundException: unknown")
        = .ok (collectPages pages)) := by
  refine ⟨?_, fun _ => rfl, fun _ => rfl, fun _ => rfl, fun _ => rfl⟩
  intro pages exMsg
  have hiff : isDeniedMsg exMsg =
      (strContains (strLower exMsg) "denied"
        || strContains (strLower exMsg) "authorization"
        || strContains (strLower exMsg) "authorized") := by
    simp [isDeniedMsg, Bool.or_assoc]
  rw [← hiff]
  unfold getResources
  by_cases h : isDeniedMsg exMsg = true
  · simp [h]
  · simp [h]

/-- C3 counterexample: a listing that fails with an exception not
classified as Denied leaves the region's error log empty — no descriptive
message carrying the original failure message is appended anywhere. -/
theorem otherFailure_logs_nothing :
    otherFailureEnv.listings "AWS::Foo::Bar"
        = .fail [] "InvalidRequestException: missing required parameter"
    ∧ isDeniedMsg "InvalidRequestException: missing required parameter" = false
    ∧ (analyzeRegion eqMatch ["AWS::Foo::Bar"] [] false otherFailureEnv "eu-west-1").errors
        = [] :=
  ⟨rfl, by decide, by decide⟩

/-- C3 (amended): every message in a region's error log is the region's
catalog-failure message, an unmatched-pattern warning, or an
access-denied message for a resource type whose listing raised
`DeniedListOperationException`; a listing failure not classified as
Denied appends no message to the error log. -/
theorem analyzeRegion_errors_classified (mf : String → String → Bool)
    (i x : List String) (c : Bool) (env : RegionEnv) (r : String) :
    ∀ m ∈ (analyzeRegion mf i x c env r).errors,
      (∃ e, m = catalogFailMsg r e) ∨ (∃ p, m = warnMsg r p) ∨
      (∃ rt, getResources (env.listings rt) = .error () ∧ m = deniedMsg r rt) := by
  intro m hm
  cases hc : env.catalog with
  | error e =>
    rw [analyzeRegion_catalogError hc] at hm
    rcases List.mem_singleton.mp hm with h
    exact Or.inl ⟨e, h⟩
  | ok s =>
    rw [analyzeRegion_catalogOk hc] at hm
    rw [show (⟨(listLoop c env.listings r (enabledResourceTypes mf i x s)
        (unmatchedWarnings mf i x s r) []).1,
        (listLoop c env.listings r (enabledResourceTypes mf i x s)
        (unmatchedWarnings mf i x s r) []).2⟩ : RegionResult).errors
      = (listLoop c env.listings r (enabledResourceTypes mf i x s)
        (unmatchedWarnings mf i x s r) []).1 from rfl, listLoop_errs] at hm
    rcases List.mem_append.mp hm with h | h
    · obtain ⟨p, hp⟩ := mem_unmatchedWarnings h
      exact Or.inr (Or.inl ⟨p, hp⟩)
    · rw [List.mem_map] at h
      obtain ⟨rt, hrt, hmsg⟩ := h
      exact Or.inr (Or.inr ⟨rt, mem_deniedUpToCrash hrt, hmsg.symm⟩)

/-- C3 (amended) witness: the unmatched-pattern warning of the concrete
denied-after-warning scenario is classified by the theorem. -/
theorem analyzeRegion_errors_classified_witness :
    (∃ e, warnMsg "us-east-1" "ZZZ::None" = catalogFailMsg "us-east-1" e)
    ∨ (∃ p, warnMsg "us-east-1" "ZZZ::None" = warnMsg "us-east-1" p)
    ∨ (∃ rt, getResources (deniedAfterWarningEnv.listings rt) = .error ()
        ∧ warnMsg "us-east-1" "ZZZ::None" = deniedMsg "us-east-1" rt) :=
  analyzeRegion_errors_classified eqMatch ["AWS::Athena::WorkGroup", "ZZZ::None"] []
    false deniedAfterWarningEnv "us-east-1" (warnMsg "us-east-1" "ZZZ::None") (by decide)

/-- C4: a (region, type) pair whose listing returns resources that the
default-resource filter reduces to zero instances gets no entry in the
region's result map, and in counts mode every entry that is written
carries a count of at least 1 — a count of 0 is never emitted. -/
theorem no_entry_for_empty_results (mf : String → String → Bool)
    (i x : List String) (c : Bool) (env : RegionEnv) (r : String)
    (s : List String) (rt : String) (rs : List (String × Props))
    (hcat : env.catalog = .ok s)
    (hok : getResources (env.listings rt) = .ok rs)
    (hempty : applyDefaultResourcesFilter rt rs = .ok []) :
    (∀ e ∈ (analyzeRegion mf i x c env r).resources, e.1 ≠ rt)
    ∧ (∀ e ∈ (analyzeRegion mf i x true env r).resources,
        ∃ n, e.2 = .count n ∧ 1 ≤ n) := by
  constructor
  · intro e he
    rw [analyzeRegion_catalogOk hcat] at he
    rcases mem_listLoop_res he with h | ⟨rt2, rs2, f2, _, hg2, hf2, hne2, heq2⟩
    · simp at h
    · intro hkey
      rw [heq2] at hkey
      simp only at hkey
      subst hkey
      rw [hok] at hg2
      have hrs : rs2 = rs := by
        injection hg2 with h2
        exact h2.symm
      subst hrs
      rw [hempty] at hf2
      injection hf2 with h3
      exact hne2 h3.symm
  · intro e he
    rw [analyzeRegion_catalogOk hcat] at he
    rcases mem_listLoop_res he with h | ⟨rt2, rs2, f2, _, _, _, hne2, heq2⟩
    · simp at h
    · refine ⟨f2.length, ?_, ?_⟩
      · rw [heq2]
        rfl
      · exact List.length_pos.mpr hne2

/-- C4 witness: the default Athena work group is filtered away, so no
entry and, in counts mode, no zero count is written for that type. -/
theorem no_entry_for_empty_results_witness :
    (∀ e ∈ (analyzeRegion eqMatch ["AWS::Athena::WorkGroup"] [] false
        emptyAfterFilterEnv "r1").resources, e.1 ≠ "AWS::Athena::WorkGroup")
    ∧ (∀ e ∈ (analyzeRegion eqMatch ["AWS::Athena::WorkGroup"] [] true
        emptyAfterFilterEnv "r1").resources,
        ∃ n, e.2 = .count n ∧ 1 ≤ n) :=
  no_entry_for_empty_results eqMatch ["AWS::Athena::WorkGroup"] [] false
    emptyAfterFilterEnv "r1" ["AWS::Athena::WorkGroup"] "AWS::Athena::WorkGroup"
    [("primary", [])] rfl rfl rfl

/-- C10: a listing that fails partway through pagination with an
exception not classified as Denied returns the instances collected from
the pages fetched before the failure, and the whole region analysis is
identical to one in which that type's listing had succeeded with exactly
those pages. -/
theorem partial_pages_kept (mf : String → String → Bool) (i x : List String)
    (c : Bool) (env : RegionEnv) (r rt : String)
    (pages : List (List (String × Props))) (exMsg : String)
    (hfail : env.listings rt = .fail pages exMsg)
    (hnd : isDeniedMsg exMsg = false) :
    getResources (env.listings rt) = .ok (collectPages pages)
    ∧ analyzeRegion mf i x c env r
        = analyzeRegion mf i x c (env.withListing rt (.ok pages)) r := by
  have hgr : getResources (env.listings rt) = .ok (collectPages pages) := by
    rw [hfail]
    unfold getResources
    simp [hnd]
  refine ⟨hgr, ?_⟩
  have hagree : ∀ t, getResources (env.listings t)
      = getResources ((env.withListing rt (.ok pages)).listings t) := by
    intro t
    unfold RegionEnv.withListing
    simp only
    by_cases ht : (t == rt) = true
    · rw [if_pos ht]
      have heq : t = rt := by simpa using ht
      subst heq
      rw [hgr]
      rfl
    · rw [if_neg ht]
  cases hc : env.catalog with
  | error m =>
    rw [analyzeRegion_catalogError hc,
      analyzeRegion_catalogError (show (env.withListing rt (.ok pages)).catalog = .error m from hc)]
  | ok s =>
    rw [analyzeRegion_catalogOk hc,
      analyzeRegion_catalogOk (show (env.withListing rt (.ok pages)).catalog = .ok s from hc)]
    rw [listLoop_congr hagree]

/-- C10 witness: the concrete non-denied failure after zero pages behaves
exactly as a successful empty listing. -/
theorem partial_pages_kept_witness :
    getResources (otherFailureEnv.listings "AWS::Foo::Bar") = .ok (collectPages [])
    ∧ analyzeRegion eqMatch ["AWS::Foo::Bar"] [] false otherFailureEnv "eu-west-1"
        = analyzeRegion eqMatch ["AWS::Foo::Bar"] [] false
            (otherFailureEnv.withListing "AWS::Foo::Bar" (.ok [])) "eu-west-1" :=
  partial_pages_kept eqMatch ["AWS::Foo::Bar"] [] false otherFailureEnv "eu-west-1"
    "AWS::Foo::Bar" [] "InvalidRequestException: missing required parameter" rfl (by decide)

/-- C2: a resource type matched by an include pattern and also by an
exclude pattern is removed from the enabled set and never appears in the
region's result map; the enabled set is exactly the union of the
include-pattern matches minus the union of the exclude-pattern matches. -/
theorem exclude_dominance (mf : String → String → Bool)
    (i x : List String) (c : Bool) (env : RegionEnv) (r : String)
    (s : List String) (t : String)
    (hcat : env.catalog = .ok s)
    (hinc : t ∈ matchedTypes mf i s)
    (hexc : t ∈ matchedTypes mf x s) :
    t ∉ enabledResourceTypes mf i x s
    ∧ (∀ e ∈ (analyzeRegion mf i x c env r).resources, e.1 ≠ t)
    ∧ (∀ t2, t2 ∈ enabledResourceTypes mf i x s ↔
        t2 ∈ matchedTypes mf i s ∧ t2 ∉ matchedTypes mf x s) := by
  have hno : t ∉ enabledResourceTypes mf i x s := by
    rw [mem_enabledResourceTypes]
    intro hand
    exact hand.2 hexc
  refine ⟨hno, ?_, fun t2 => mem_enabledResourceTypes⟩
  intro e he
  rw [analyzeRegion_catalogOk hcat] at he
  rcases mem_listLoop_res he with h | ⟨rt2, rs2, f2, hmem, _, _, _, heq2⟩
  · simp at h
  · intro hkey
    rw [heq2] at hkey
    simp only at hkey
    subst hkey
    exact hno hmem

/-- C2 witness: a type matched by both an include and an exclude pattern
is absent from the enabled set and from the region's results. -/
theorem exclude_dominance_witness :
    "AWS::Athena::WorkGroup" ∉ enabledResourceTypes eqMatch
        ["AWS::Athena::WorkGroup"] ["AWS::Athena::WorkGroup"] ["AWS::Athena::WorkGroup"]
    ∧ (∀ e ∈ (analyzeRegion eqMatch ["AWS::Athena::WorkGroup"] ["AWS::Athena::WorkGroup"]
        false deniedAfterWarningEnv "us-east-1").resources, e.1 ≠ "AWS::Athena::WorkGroup")
    ∧ (∀ t2, t2 ∈ enabledResourceTypes eqMatch ["AWS::Athena::WorkGroup"]
          ["AWS::Athena::WorkGroup"] ["AWS::Athena::WorkGroup"] ↔
        t2 ∈ matchedTypes eqMatch ["AWS::Athena::WorkGroup"] ["AWS::Athena::WorkGroup"]
        ∧ t2 ∉ matchedTypes eqMatch ["AWS::Athena::WorkGroup"] ["AWS::Athena::WorkGroup"]) :=
  exclude_dominance eqMatch ["AWS::Athena::WorkGroup"] ["AWS::Athena::WorkGroup"] false
    deniedAfterWarningEnv "us-east-1" ["AWS::Athena::WorkGroup"] "AWS::Athena::WorkGroup"
    rfl (by decide) (by decide)

/-- C5: a region whose catalog query fails gets exactly one catalog-level
error message, keeps an empty entry in the regions map, and every
region's slots depend only on that region's own environment, so sibling
regions are unaffected. -/
theorem catalog_failure_isolated (mf : String → String → Bool)
    (i x : List String) (c : Bool) (envs envs2 : String → RegionEnv)
    (regions : List String) (r m : String)
    (hr : r ∈ regions)
    (hfail : (envs r).catalog = .error m) :
    (runAll mf i x c envs regions).errors.lookup r = some [catalogFailMsg r m]
    ∧ (runAll mf i x c envs regions).regionsMap.lookup r = some []
    ∧ (∀ r2 ∈ regions, envs2 r2 = envs r2 →
        (runAll mf i x c envs2 regions).errors.lookup r2
          = (runAll mf i x c envs regions).errors.lookup r2
        ∧ (runAll mf i x c envs2 regions).regionsMap.lookup r2
          = (runAll mf i x c envs regions).regionsMap.lookup r2) := by
  have herr : ∀ (es : String → RegionEnv) (q : String),
      (runAll mf i x c es regions).errors.lookup q
        = if q ∈ regions then some ((analyzeRegion mf i x c (es q) q).errors) else none :=
    fun es q => lookup_map_pair (fun q2 => (analyzeRegion mf i x c (es q2) q2).errors) regions q
  have hreg : ∀ (es : String → RegionEnv) (q : String),
      (runAll mf i x c es regions).regionsMap.lookup q
        = if q ∈ regions then some ((analyzeRegion mf i x c (es q) q).resources) else none :=
    fun es q => lookup_map_pair (fun q2 => (analyzeRegion mf i x c (es q2) q2).resources) regions q
  refine ⟨?_, ?_, ?_⟩
  · rw [herr envs r, if_pos hr, analyzeRegion_catalogError hfail]
  · rw [hreg envs r, if_pos hr, analyzeRegion_catalogError hfail]
  · intro r2 _ hsame
    constructor
    · rw [herr envs2 r2, herr envs r2, hsame]
    · rw [hreg envs2 r2, hreg envs r2, hsame]

/-- C5 witness: in the concrete two-region scenario the failed region has
exactly the one catalog message and an empty regions entry, and the
healthy sibling's slots are unchanged when the failed region's
environment is replaced by a healthy one. -/
theorem catalog_failure_isolated_witness :
    (runAll eqMatch ["AWS::Foo::Bar"] [] false twoRegionEnvs
        ["r-bad", "r-good"]).errors.lookup "r-bad"
      = some [catalogFailMsg "r-bad" "InternalFailure"]
    ∧ (runAll eqMatch ["AWS::Foo::Bar"] [] false twoRegionEnvs
        ["r-bad", "r-good"]).regionsMap.lookup "r-bad" = some []
    ∧ ((runAll eqMatch ["AWS::Foo::Bar"] [] false (fun _ => healthyEnv)
          ["r-bad", "r-good"]).errors.lookup "r-good"
        = (runAll eqMatch ["AWS::Foo::Bar"] [] false twoRegionEnvs
            ["r-bad", "r-good"]).errors.lookup "r-good"
      ∧ (runAll eqMatch ["AWS::Foo::Bar"] [] false (fun _ => healthyEnv)
          ["r-bad", "r-good"]).regionsMap.lookup "r-good"
        = (runAll eqMatch ["AWS::Foo::Bar"] [] false twoRegionEnvs
            ["r-bad", "r-good"]).regionsMap.lookup "r-good") :=
  ⟨(catalog_failure_isolated eqMatch ["AWS::Foo::Bar"] [] false twoRegionEnvs
      (fun _ => healthyEnv) ["r-bad", "r-good"] "r-bad" "InternalFailure"
      (by decide) rfl).1,
   (catalog_failure_isolated eqMatch ["AWS::Foo::Bar"] [] false twoRegionEnvs
      (fun _ => healthyEnv) ["r-bad", "r-good"] "r-bad" "InternalFailure"
      (by decide) rfl).2.1,
   (catalog_failure_isolated eqMatch ["AWS::Foo::Bar"] [] false twoRegionEnvs
      (fun _ => healthyEnv) ["r-bad", "r-good"] "r-bad" "InternalFailure"
      (by decide) rfl).2.2 "r-good" (by decide) rfl⟩

/-- C6 counterexample: a per-type rule that inspects the properties
document raises `KeyError` when the inspected field is absent — the
filter is not a total function. -/
theorem applyFilter_keyError :
    applyDefaultResourcesFilter "AWS::AppConfig::Extension" [("ext-1", [])]
      = .error "KeyError: Arn" := rfl

/-- C6 (amended): `apply_default_resources_filter` returns a result
without raising for every resource type and instance map in which each
instance's properties document contains the fields the per-type rules
inspect ("Arn", "Type", "OwnerId", "PermissionType", "CreatorRequestId",
"Name"); when such a field is absent the rules that inspect properties
raise `KeyError`. -/
theorem applyFilter_total_when_fields_present (rt : String)
    (resources : List (String × Props))
    (h : ∀ kv ∈ resources,
      ∀ fieldName ∈ ["Arn", "Type", "OwnerId", "PermissionType",
        "CreatorRequestId", "Name"], ((kv.2 : Props).lookup fieldName).isSome) :
    ∃ rs, applyDefaultResourcesFilter rt resources = .ok rs := by
  unfold applyDefaultResourcesFilter
  split
  all_goals first
    | exact ⟨_, rfl⟩
    | (apply filterKV_ok
       intro kv hkv
       first
         | exact mapPred_ok _ (h kv hkv "Arn" (by simp))
         | exact mapPred_ok _ (h kv hkv "Type" (by simp))
         | exact mapPred_ok _ (h kv hkv "OwnerId" (by simp))
         | exact mapPred_ok _ (h kv hkv "PermissionType" (by simp))
         | exact mapPred_ok _ (h kv hkv "CreatorRequestId" (by simp))
         | exact mapPred_ok _ (h kv hkv "Name" (by simp)))

/-- C6 (amended) witness: with all inspected fields present the filter
returns a result. -/
theorem applyFilter_total_witness :
    ∃ rs, applyDefaultResourcesFilter "AWS::EC2::PrefixList"
      [("pl-1", [("Arn", "a"), ("Type", "t"), ("OwnerId", "AWS"),
        ("PermissionType", "p"), ("CreatorRequestId", "c"), ("Name", "n")])]
      = .ok rs :=
  applyFilter_total_when_fields_present "AWS::EC2::PrefixList"
    [("pl-1", [("Arn", "a"), ("Type", "t"), ("OwnerId", "AWS"),
      ("PermissionType", "p"), ("CreatorRequestId", "c"), ("Name", "n")])] (by decide)

/-- C7 counterexample: in a concrete run one region's error log is the
unmatched-pattern warning followed by an access-denied message; the
second message sorts strictly before the first, so the list in the final
result collection is not sorted (`json.dump(..., sort_keys=True)` sorts
only object keys, not list elements). -/
theorem error_log_not_sorted :
    (analyzeRegion eqMatch ["AWS::Athena::WorkGroup", "ZZZ::None"] [] false
        deniedAfterWarningEnv "us-east-1").errors
      = [warnMsg "us-east-1" "ZZZ::None",
         deniedMsg "us-east-1" "AWS::Athena::WorkGroup"]
    ∧ strLt (deniedMsg "us-east-1" "AWS::Athena::WorkGroup")
        (warnMsg "us-east-1" "ZZZ::None") = true
    ∧ (runAll eqMatch ["AWS::Athena::WorkGroup", "ZZZ::None"] [] false
        (fun _ => deniedAfterWarningEnv) ["us-east-1"]).errors
      = [("us-east-1", [warnMsg "us-east-1" "ZZZ::None",
          deniedMsg "us-east-1" "AWS::Athena::WorkGroup"])]
    ∧ ¬ List.Pairwise (fun a b => strLe a b = true)
        (analyzeRegion eqMatch ["AWS::Athena::WorkGroup", "ZZZ::None"] [] false
          deniedAfterWarningEnv "us-east-1").errors := by
  refine ⟨by decide, by decide, by decide, ?_⟩
  intro hpw
  rw [show (analyzeRegion eqMatch ["AWS::Athena::WorkGroup", "ZZZ::None"] [] false
      deniedAfterWarningEnv "us-east-1").errors
    = [warnMsg "us-east-1" "ZZZ::None",
       deniedMsg "us-east-1" "AWS::Athena::WorkGroup"] from by decide] at hpw
  have hle := (List.pairwise_cons.mp hpw).1 _ (List.mem_singleton_self _)
  exact absurd hle (by decide)

/-- C7 (amended): every region's error log — both as produced by the
region's worker and as held in the final result collection — contains no
duplicate entries; it is in processing order (warnings before denial
messages) rather than sorted. -/
theorem error_log_nodup (mf : String → String → Bool) (i x : List String)
    (c : Bool) (env : RegionEnv) (r : String)
    (envs : String → RegionEnv) (regions : List String) :
    ((analyzeRegion mf i x c env r).errors).Nodup
    ∧ ∀ pr ∈ (runAll mf i x c envs regions).errors, (pr.2 : List String).Nodup := by
  have main : ∀ (env2 : RegionEnv) (r2 : String),
      ((analyzeRegion mf i x c env2 r2).errors).Nodup := by
    intro env2 r2
    cases hc : env2.catalog with
    | error m =>
      rw [analyzeRegion_catalogError hc]
      simp
    | ok s =>
      rw [analyzeRegion_catalogOk hc]
      show ((listLoop c env2.listings r2 (enabledResourceTypes mf i x s)
        (unmatchedWarnings mf i x s r2) []).1).Nodup
      rw [listLoop_errs]
      refine List.Nodup.append (nodup_unmatchedWarnings mf i x s r2) ?_ ?_
      · refine List.Nodup.map_on ?_ ?_
        · intro p _ q _ hpq
          exact deniedMsg_inj hpq
        · exact (deniedUpToCrash_sublist env2.listings _).nodup (nodup_sortDedup _)
      · rw [List.disjoint_left]
        intro a ha hb
        obtain ⟨p, hp⟩ := mem_unmatchedWarnings ha
        rw [List.mem_map] at hb
        obtain ⟨t2, _, ht2⟩ := hb
        exact warnMsg_ne_deniedMsg (hp.symm.trans ht2.symm)
  refine ⟨main env r, ?_⟩
  intro pr hpr
  rw [show (runAll mf i x c envs regions).errors
    = regions.map (fun q => (q, (analyzeRegion mf i x c (envs q) q).errors)) from rfl,
    List.mem_map] at hpr
  obtain ⟨q, _, hq⟩ := hpr
  rw [← hq]
  exact main (envs q) q

/-- C7 (amended) witness: the concrete unsorted error log of the
denied-after-warning scenario is duplicate-free, also as the final
collection's entry for its region. -/
theorem error_log_nodup_witness :
    ((analyzeRegion eqMatch ["AWS::Athena::WorkGroup", "ZZZ::None"] [] false
        deniedAfterWarningEnv "us-east-1").errors).Nodup
    ∧ ((("us-east-1", [warnMsg "us-east-1" "ZZZ::None",
          deniedMsg "us-east-1" "AWS::Athena::WorkGroup"]) :
            String × List String).2).Nodup :=
  ⟨(error_log_nodup eqMatch ["AWS::Athena::WorkGroup", "ZZZ::None"] [] false
      deniedAfterWarningEnv "us-east-1" (fun _ => deniedAfterWarningEnv)
      ["us-east-1"]).1,
   (error_log_nodup eqMatch ["AWS::Athena::WorkGroup", "ZZZ::None"] [] false
      deniedAfterWarningEnv "us-east-1" (fun _ => deniedAfterWarningEnv)
      ["us-east-1"]).2
     ("us-east-1", [warnMsg "us-east-1" "ZZZ::None",
        deniedMsg "us-east-1" "AWS::Athena::WorkGroup"]) (by decide)⟩

/-- C8: a user-supplied include or exclude pattern that matches zero
supported resource types in a region produces a warning naming the
pattern and region in that region's error log, and discovery continues:
the region's result map is the same as if the unmatched pattern had not
been supplied at all. -/
theorem unmatched_pattern_warns_and_continues (mf : String → String → Bool)
    (i x : List String) (c : Bool) (env : RegionEnv) (r : String)
    (s : List String) (p : String)
    (hcat : env.catalog = .ok s)
    (hp : p ∈ i ++ x)
    (hnone : ∀ t ∈ s, mf p t = false) :
    warnMsg r p ∈ (analyzeRegion mf i x c env r).errors
    ∧ (analyzeRegion mf (i.filter (fun q => q != p)) (x.filter (fun q => q != p))
        c env r).resources
      = (analyzeRegion mf i x c env r).resources := by
  constructor
  · rw [analyzeRegion_catalogOk hcat]
    show warnMsg r p ∈ (listLoop c env.listings r (enabledResourceTypes mf i x s)
      (unmatchedWarnings mf i x s r) []).1
    rw [listLoop_errs]
    apply List.mem_append_left
    unfold unmatchedWarnings
    rw [List.mem_map]
    refine ⟨p, ?_, rfl⟩
    rw [List.mem_filter]
    constructor
    · exact mem_sortDedup.mpr hp
    · have hfil : List.filter (fun t => mf p t) s = [] :=
        List.filter_eq_nil_iff.mpr (fun a ha => by simp [hnone a ha])
      rw [hfil]
      rfl
  · rw [analyzeRegion_catalogOk hcat, analyzeRegion_catalogOk hcat]
    show (listLoop c env.listings r
        (enabledResourceTypes mf (i.filter (fun q => q != p))
          (x.filter (fun q => q != p)) s)
        (unmatchedWarnings mf (i.filter (fun q => q != p))
          (x.filter (fun q => q != p)) s r) []).2
      = (listLoop c env.listings r (enabledResourceTypes mf i x s)
          (unmatchedWarnings mf i x s r) []).2
    rw [enabled_remove_unmatched hnone i x]
    exact listLoop_res_errs_indep c env.listings r _ _ _ []

/-- C8 witness: the concrete unmatched pattern is warned about and does
not change the region's results. -/
theorem unmatched_pattern_warns_witness :
    warnMsg "us-east-1" "ZZZ::None"
      ∈ (analyzeRegion eqMatch ["AWS::Athena::WorkGroup", "ZZZ::None"] [] false
          deniedAfterWarningEnv "us-east-1").errors
    ∧ (analyzeRegion eqMatch
        (["AWS::Athena::WorkGroup", "ZZZ::None"].filter (fun q => q != "ZZZ::None"))
        ([].filter (fun q => q != "ZZZ::None")) false
        deniedAfterWarningEnv "us-east-1").resources
      = (analyzeRegion eqMatch ["AWS::Athena::WorkGroup", "ZZZ::None"] [] false
          deniedAfterWarningEnv "us-east-1").resources :=
  unmatched_pattern_warns_and_continues eqMatch
    ["AWS::Athena::WorkGroup", "ZZZ::None"] [] false deniedAfterWarningEnv
    "us-east-1" ["AWS::Athena::WorkGroup"] "ZZZ::None" rfl (by decide) (by decide)

end AwsListResources
